import Mathlib

/-!
Verification of the todo-app domain layer (`src/todo_app`).

The Python code is shallowly embedded:
* Python `str` is `List Char` (`Str` below), so that `str.strip`, `str.split`,
  `str.join` and substring tests become executable list functions provable by
  induction.
* `datetime`/`date` values are `Nat` timestamps (only ordering and equality of
  these values matter to the code under verification).
* The SQLAlchemy-backed repository is a state-passing function over `RepoState`,
  whose rows mirror the `TodoORM` columns: `status`, `priority` and `tags` are
  stored as strings exactly as `SqlAlchemyTodoRepository` writes them
  (`status.name`, `priority.name`, comma-joined tags).
* Python exceptions are `Except`/`Option` results.
-/

namespace TodoApp

/-- Python strings, modelled as lists of characters. -/
abbrev Str := List Char

/-- Characters removed by Python's `str.strip()`. -/
def isWS (c : Char) : Bool := c.isWhitespace

/-- Python `s.strip()`: remove leading and trailing whitespace. -/
def strip (s : Str) : Str := (s.dropWhile isWS).rdropWhile isWS

/-- Python `s.lower()` (restricted to the alphabet the app uses). -/
def lower (s : Str) : Str := s.map Char.toLower

/-- Python `s.split(",")`. `split [] = [[]]`, matching `"".split(",") == [""]`. -/
def splitComma : Str → List Str
  | [] => [[]]
  | c :: rest =>
    if c = ',' then [] :: splitComma rest
    else
      match splitComma rest with
      | [] => [[c]]
      | h :: t => (c :: h) :: t

/-- Python `",".join(parts)`. -/
def joinComma : List Str → Str
  | [] => []
  | [t] => t
  | t :: ts => t ++ ',' :: joinComma ts

/-- Python `Status` from `domain/models.py`. -/
inductive Status
  | PENDING
  | DONE
deriving DecidableEq, Repr

/-- Python `Priority` from `domain/models.py`. -/
inductive Priority
  | LOW
  | MEDIUM
  | HIGH
deriving DecidableEq, Repr

/-- Python `Status.name`. -/
def Status.pyName : Status → Str
  | .PENDING => "PENDING".data
  | .DONE => "DONE".data

/-- Python `Priority.name`. -/
def Priority.pyName : Priority → Str
  | .LOW => "LOW".data
  | .MEDIUM => "MEDIUM".data
  | .HIGH => "HIGH".data

/-- Python `Status[s]`; `none` models the `KeyError` raised on an unknown name. -/
def statusFromName (s : Str) : Option Status :=
  if s = "PENDING".data then some .PENDING
  else if s = "DONE".data then some .DONE
  else none

/-- Python `Priority[s]`; `none` models the `KeyError` raised on an unknown name. -/
def priorityFromName (s : Str) : Option Priority :=
  if s = "LOW".data then some .LOW
  else if s = "MEDIUM".data then some .MEDIUM
  else if s = "HIGH".data then some .HIGH
  else none

/-- Python `TodoItem` from `domain/models.py`. -/
structure TodoItem where
  id : Option Nat
  title : Str
  description : Option Str
  status : Status
  created_at : Nat
  updated_at : Nat
  due_date : Option Nat
  priority : Option Priority
  tags : List Str
deriving DecidableEq, Repr

/-- Python `TodoORM` from `infrastructure/models.py`: one row of the `todos` table.
`status`, `priority` and `tags` are the raw stored strings. -/
structure Row where
  id : Nat
  title : Str
  description : Option Str
  status : Str
  created_at : Nat
  updated_at : Nat
  due_date : Option Nat
  priority : Option Str
  tags : Option Str
deriving DecidableEq, Repr

/-- The SQLite store: the `todos` table plus the autoincrement counter. -/
structure RepoState where
  rows : List Row
  next_id : Nat
deriving DecidableEq, Repr

namespace SqlAlchemyTodoRepository

/-- Python `",".join(item.tags) if item.tags else None` in `add`/`update`. -/
def tagsToOrm (tags : List Str) : Option Str :=
  if tags = [] then none else some (joinComma tags)

/-- Python `item.priority.name if item.priority is not None else None` in `add`/`update`. -/
def priorityToOrm : Option Priority → Option Str
  | none => none
  | some p => some p.pyName

/-- The tag decoding in `_to_domain`:
`[t.strip() for t in orm.tags.split(",") if t.strip()]` guarded by `if orm.tags:`
(both `None` and the empty string are falsy). -/
def ormTags : Option Str → List Str
  | none => []
  | some s =>
    if s = [] then []
    else ((splitComma s).filter (fun t => strip t ≠ [])).map strip

/-- The priority decoding in `_to_domain`: `Priority[orm.priority]` guarded by
`if orm.priority:`; the outer `none` models the `KeyError` on an unknown name. -/
def ormPriority : Option Str → Option (Option Priority)
  | none => some none
  | some s =>
    if s = [] then some none
    else (priorityFromName s).map some

/-- Python `SqlAlchemyTodoRepository._to_domain`; `none` models the `KeyError` raised by
`Status[orm.status]` / `Priority[orm.priority]` on a corrupted row. -/
def _to_domain (r : Row) : Option TodoItem :=
  match statusFromName r.status, ormPriority r.priority with
  | some st, some pr =>
    some { id := some r.id, title := r.title, description := r.description,
           status := st, created_at := r.created_at, updated_at := r.updated_at,
           due_date := r.due_date, priority := pr, tags := ormTags r.tags }
  | _, _ => none

/-- The ORM row built by `add` for a fresh item, with the assigned primary key. -/
def rowOfNew (item : TodoItem) (id : Nat) : Row :=
  { id := id, title := item.title, description := item.description,
    status := item.status.pyName, created_at := item.created_at,
    updated_at := item.updated_at, due_date := item.due_date,
    priority := priorityToOrm item.priority, tags := tagsToOrm item.tags }

/-- Python `SqlAlchemyTodoRepository.add`: insert with a fresh autoincrement id, then
return `_to_domain` of the refreshed row. -/
def add (s : RepoState) (item : TodoItem) : Option TodoItem × RepoState :=
  let row := rowOfNew item s.next_id
  (_to_domain row, { rows := s.rows ++ [row], next_id := s.next_id + 1 })

/-- The `ORDER BY created_at DESC` ordering used by `list_all`. -/
def createdDesc (a b : Row) : Prop := b.created_at ≤ a.created_at

instance : DecidableRel createdDesc := fun a b => Nat.decLe b.created_at a.created_at

instance : IsTotal Row createdDesc := ⟨fun a b => Nat.le_total b.created_at a.created_at⟩

instance : IsTrans Row createdDesc := ⟨fun _ _ _ h1 h2 => Nat.le_trans h2 h1⟩

/-- Python `[self._to_domain(row) for row in result]`: the first `KeyError` aborts. -/
def mapDecode : List Row → Option (List TodoItem)
  | [] => some []
  | r :: rest =>
    match _to_domain r, mapDecode rest with
    | some it, some its => some (it :: its)
    | _, _ => none

/-- Python `SqlAlchemyTodoRepository.list_all`: all rows ordered by `created_at`
descending, mapped to domain items. -/
def list_all (s : RepoState) : Option (List TodoItem) :=
  mapDecode (s.rows.insertionSort createdDesc)

/-- Python `session.get(TodoORM, item_id)`: primary-key lookup. -/
def lookup (s : RepoState) (item_id : Nat) : Option Row :=
  s.rows.find? (fun r => r.id = item_id)

/-- Python `SqlAlchemyTodoRepository.get`: `None` for a missing id, otherwise
`_to_domain` of the row (whose `KeyError` is also folded into `none`). -/
def get (s : RepoState) (item_id : Nat) : Option TodoItem :=
  match lookup s item_id with
  | none => none
  | some r => _to_domain r

/-- Commit of an in-place mutation of the row with primary key `item_id`. -/
def commitRow (s : RepoState) (item_id : Nat) (r' : Row) : RepoState :=
  { rows := s.rows.map (fun x => if x.id = item_id then r' else x),
    next_id := s.next_id }

/-- Python `SqlAlchemyTodoRepository.update`: raises `ValueError` (the `Except.error`)
when no row has the item's id; otherwise overwrites the mutable columns,
stamps `updated_at`, commits and returns the re-read row. -/
def update (s : RepoState) (item : TodoItem) (now : Nat) :
    Except Str TodoItem × RepoState :=
  match item.id.bind (lookup s) with
  | none => (.error ("Todo with id ? not found".data), s)
  | some r =>
    let r' : Row :=
      { r with title := item.title, description := item.description,
               status := item.status.pyName, updated_at := now,
               due_date := item.due_date, priority := priorityToOrm item.priority,
               tags := tagsToOrm item.tags }
    let s' := commitRow s r.id r'
    match _to_domain r' with
    | some it => (.ok it, s')
    | none => (.error ("KeyError".data), s')

/-- Python `SqlAlchemyTodoRepository.delete`: silent no-op on a missing id. -/
def delete (s : RepoState) (item_id : Nat) : RepoState :=
  match lookup s item_id with
  | none => s
  | some _ => { rows := s.rows.filter (fun x => x.id ≠ item_id), next_id := s.next_id }

/-- Python `SqlAlchemyTodoRepository.set_status`: `None` for a missing id, otherwise
sets the status column, stamps `updated_at`, commits and returns the row. -/
def set_status (s : RepoState) (item_id : Nat) (status : Status) (now : Nat) :
    Option TodoItem × RepoState :=
  match lookup s item_id with
  | none => (none, s)
  | some r =>
    let r' : Row := { r with status := status.pyName, updated_at := now }
    (_to_domain r', commitRow s item_id r')

end SqlAlchemyTodoRepository

namespace services

open SqlAlchemyTodoRepository

/-- Python `description.strip() if description else None` (`None` and `""` are falsy). -/
def normDesc : Option Str → Option Str
  | none => none
  | some s => if s = [] then none else some (strip s)

/-- Python `[t.strip() for t in (tags or []) if t.strip()]` in `create_todo`/`update_todo`. -/
def normTags (tags : Option (List Str)) : List Str :=
  ((tags.getD []).filter (fun t => strip t ≠ [])).map strip

/-- Python `create_todo` from `domain/services.py`, instantiated with the SQLAlchemy
repository; `now` is the `datetime.utcnow()` reading. -/
def create_todo (s : RepoState) (title : Str) (description : Option Str)
    (due_date : Option Nat) (priority : Option Priority)
    (tags : Option (List Str)) (now : Nat) : Option TodoItem × RepoState :=
  let item : TodoItem :=
    { id := none, title := strip title, description := normDesc description,
      status := .PENDING, created_at := now, updated_at := now,
      due_date := due_date, priority := priority, tags := normTags tags }
  add s item

/-- Python `list_todos` from `domain/services.py`; `today` is the `date.today()` reading used
when the flag is set and no reference date is given. -/
def list_todos (s : RepoState) (status : Option Status) (priority : Option Priority)
    (due_today_or_overdue : Bool) (reference_date : Option Nat) (today : Nat) :
    Option (List TodoItem) :=
  match list_all s with
  | none => none
  | some items0 =>
    let items1 :=
      match status with
      | none => items0
      | some st => items0.filter (fun item => item.status = st)
    let items2 :=
      match priority with
      | none => items1
      | some p => items1.filter (fun item => item.priority = some p)
    let items3 :=
      if due_today_or_overdue then
        let ref_date := reference_date.getD today
        items2.filter (fun item =>
          match item.due_date with
          | none => false
          | some d => d ≤ ref_date)
      else items2
    some items3

/-- Python `toggle_done` from `domain/services.py`. -/
def toggle_done (s : RepoState) (item_id : Nat) (now : Nat) :
    Option TodoItem × RepoState :=
  match get s item_id with
  | none => (none, s)
  | some item =>
    let new_status := if item.status = Status.PENDING then Status.DONE else Status.PENDING
    set_status s item_id new_status now

/-- Python `update_todo` from `domain/services.py`: absent (`Except.ok none`) when the id is
not stored; any repository exception propagates as `Except.error`. -/
def update_todo (s : RepoState) (item_id : Nat) (title : Str)
    (description : Option Str) (due_date : Option Nat) (priority : Option Priority)
    (tags : Option (List Str)) (now : Nat) :
    Except Str (Option TodoItem) × RepoState :=
  match get s item_id with
  | none => (.ok none, s)
  | some existing =>
    let existing' : TodoItem :=
      { existing with title := strip title, description := normDesc description,
                      due_date := due_date, priority := priority,
                      tags := normTags tags, updated_at := now }
    match SqlAlchemyTodoRepository.update s existing' now with
    | (.ok it, s') => (.ok (some it), s')
    | (.error e, s') => (.error e, s')

end services

/-- Python `parse_tags` from `ui/helpers.py`. -/
def parse_tags (raw : Str) : List Str :=
  ((splitComma raw).filter (fun t => strip t ≠ [])).map strip

namespace filters

/-- Modelled from the spec: case-insensitive substring match of the text query
against an item's title or description (`domain/filters.py` declares
`apply_filters` but its body is missing from the source). A `none` description
contributes no match. -/
def textMatches (q : Str) (item : TodoItem) : Bool :=
  decide ((lower q) <:+: (lower item.title)) ||
    (match item.description with
     | none => false
     | some d => decide ((lower q) <:+: (lower d)))

/-- Modelled from the spec: the body of `apply_filters` in
`domain/filters.py` is missing from the source (the file holds only the
signature and docstring). Per §4.3 of the spec: return the subset matching
every supplied filter — status by exact match, text query by case-insensitive
substring of title/description, tag by membership in the tags sequence —
with AND semantics, absent filters as no-ops, and input order preserved.
Modelled as one sequential pass per supplied filter. -/
def apply_filters (items : List TodoItem) (status : Option Status)
    (text_query : Option Str) (tag : Option Str) : List TodoItem :=
  let items1 :=
    match status with
    | none => items
    | some st => items.filter (fun item => item.status = st)
  let items2 :=
    match text_query with
    | none => items1
    | some q => items1.filter (fun item => textMatches q item)
  match tag with
  | none => items2
  | some t => items2.filter (fun item => t ∈ item.tags)

/-- HIGH → MEDIUM → LOW → absent-priority-last, as a sort rank. -/
def prioRank : Option Priority → Nat
  | some .HIGH => 0
  | some .MEDIUM => 1
  | some .LOW => 2
  | none => 3

/-- Due-date order with absent dates last. -/
def dueLe : Option Nat → Option Nat → Prop
  | some x, some y => x ≤ y
  | some _, none => True
  | none, some _ => False
  | none, none => True

instance : DecidableRel dueLe := fun a b =>
  match a, b with
  | some x, some y => Nat.decLe x y
  | some _, none => .isTrue trivial
  | none, some _ => .isFalse (fun h => h)
  | none, none => .isTrue trivial

/-- Strict part of `dueLe`. -/
def dueLt (a b : Option Nat) : Prop := dueLe a b ∧ ¬ dueLe b a

instance : DecidableRel dueLt := fun a b =>
  inferInstanceAs (Decidable (dueLe a b ∧ ¬ dueLe b a))

/-- Modelled from the spec: the comparison used by `sort_items`. When both
flags are set, due date is the primary key and priority the secondary
tie-break; with one flag, that key alone; with no flag, every pair is tied
(so a stable sort keeps the input order). -/
def itemLe (by_due_date by_priority : Bool) (a b : TodoItem) : Prop :=
  match by_due_date, by_priority with
  | true, true =>
    dueLt a.due_date b.due_date ∨
      (a.due_date = b.due_date ∧ prioRank a.priority ≤ prioRank b.priority)
  | true, false => dueLe a.due_date b.due_date
  | false, true => prioRank a.priority ≤ prioRank b.priority
  | false, false => True

instance (bd bp : Bool) : DecidableRel (itemLe bd bp) := fun a b => by
  unfold itemLe
  match bd, bp with
  | true, true => exact inferInstanceAs (Decidable (_ ∨ _))
  | true, false => exact inferInstanceAs (Decidable (dueLe _ _))
  | false, true => exact inferInstanceAs (Decidable (_ ≤ _))
  | false, false => exact inferInstanceAs (Decidable True)

/-- Modelled from the spec: the body of `sort_items` in `domain/filters.py`
is missing from the source (the file holds only the signature and docstring).
Per §4.3 of the spec: a stable sort by the requested keys — due date with
absent-dates-last, priority HIGH → MEDIUM → LOW → absent-last, due date
primary and priority secondary when both flags are set, and input order kept
when no flag is set or for ties. Modelled as a stable insertion sort. -/
def sort_items (items : List TodoItem) (by_due_date by_priority : Bool) :
    List TodoItem :=
  items.insertionSort (itemLe by_due_date by_priority)

end filters

/-! ### String lemmas -/

theorem strip_sublist (s : Str) : List.Sublist (strip s) s :=
  (( List.rdropWhile_prefix isWS (s.dropWhile isWS)).sublist).trans
    (List.dropWhile_suffix isWS).sublist

theorem mem_of_mem_strip {c : Char} {s : Str} (h : c ∈ strip s) : c ∈ s :=
  (strip_sublist s).subset h

theorem dropWhile_eq_self_of_front {p : Char → Bool} {u v : Str}
    (hu : u.dropWhile p = u) (hv : v <+: u) : v.dropWhile p = v := by
  cases v with
  | nil => rfl
  | cons c v' =>
    obtain ⟨t, ht⟩ := hv
    subst ht
    rw [List.cons_append, List.dropWhile_cons] at hu
    rw [List.dropWhile_cons]
    by_cases hc : p c
    · simp only [hc, if_true] at hu
      have hlen := (List.dropWhile_sublist (l := v' ++ t) (p := p)).length_le
      rw [hu] at hlen
      simp at hlen
    · simp [hc]

theorem strip_idem (s : Str) : strip (strip s) = strip s := by
  unfold strip
  have h1 : (s.dropWhile isWS).rdropWhile isWS <+: s.dropWhile isWS :=
    List.rdropWhile_prefix isWS _
  have h2 : ((s.dropWhile isWS).rdropWhile isWS).dropWhile isWS =
      (s.dropWhile isWS).rdropWhile isWS :=
    dropWhile_eq_self_of_front (List.dropWhile_idempotent _ _) h1
  rw [h2, List.rdropWhile_idempotent]

/-! ### splitComma / joinComma lemmas -/

theorem splitComma_ne_nil (s : Str) : splitComma s ≠ [] := by
  induction s with
  | nil => simp [splitComma]
  | cons c rest ih =>
    unfold splitComma
    by_cases hc : c = ','
    · simp [hc]
    · simp only [hc, if_false]
      cases h : splitComma rest with
      | nil => simp
      | cons h t => simp

theorem splitComma_no_comma {s : Str} (h : ',' ∉ s) : splitComma s = [s] := by
  induction s with
  | nil => rfl
  | cons c rest ih =>
    have hc : ¬ (c = ',') := fun hc => h (hc ▸ List.mem_cons_self c rest)
    have hrest : ',' ∉ rest := fun hm => h (List.mem_cons_of_mem c hm)
    simp only [splitComma, hc, if_false, ih hrest]

theorem splitComma_append {xs : Str} (h : ',' ∉ xs) (rest : Str) :
    splitComma (xs ++ ',' :: rest) = xs :: splitComma rest := by
  induction xs with
  | nil => simp [splitComma]
  | cons c xs' ih =>
    have hc : ¬ (c = ',') := fun hc => h (hc ▸ List.mem_cons_self c xs')
    have hxs : ',' ∉ xs' := fun hm => h (List.mem_cons_of_mem c hm)
    simp only [List.cons_append, splitComma, hc, if_false, List.append_eq, ih hxs]

theorem joinComma_cons_cons (t u : Str) (ts : List Str) :
    joinComma (t :: u :: ts) = t ++ ',' :: joinComma (u :: ts) := rfl

theorem splitComma_joinComma {ts : List Str} (hne : ts ≠ [])
    (h : ∀ t ∈ ts, ',' ∉ t) : splitComma (joinComma ts) = ts := by
  induction ts with
  | nil => exact absurd rfl hne
  | cons t ts' ih =>
    cases ts' with
    | nil =>
      have : joinComma [t] = t := rfl
      rw [this, splitComma_no_comma (h t (List.mem_cons_self t []))]
    | cons u ts'' =>
      rw [joinComma_cons_cons,
        splitComma_append (h t (List.mem_cons_self t _)) _,
        ih (by simp) (fun x hx => h x (List.mem_cons_of_mem t hx))]

theorem joinComma_ne_nil {ts : List Str} (hne : ts ≠ []) (h : ∀ t ∈ ts, t ≠ []) :
    joinComma ts ≠ [] := by
  cases ts with
  | nil => exact absurd rfl hne
  | cons t ts' =>
    cases ts' with
    | nil => exact h t (List.mem_cons_self t [])
    | cons u ts'' =>
      rw [joinComma_cons_cons]
      cases ht : t with
      | nil => exact absurd ht (h t (List.mem_cons_self t _))
      | cons c cs => simp

/-! ### Repository decoding lemmas -/

namespace SqlAlchemyTodoRepository

theorem statusFromName_pyName (st : Status) : statusFromName st.pyName = some st := by
  cases st <;> decide

theorem pyName_of_statusFromName {s : Str} {st : Status}
    (h : statusFromName s = some st) : st.pyName = s := by
  unfold statusFromName at h
  split at h
  · rename_i h1
    cases h
    rw [h1]; rfl
  · split at h
    · rename_i h2
      cases h
      rw [h2]; rfl
    · exact absurd h (by simp)

theorem ormPriority_priorityToOrm (p : Option Priority) :
    ormPriority (priorityToOrm p) = some p := by
  cases p with
  | none => rfl
  | some pr => cases pr <;> decide

/-- The cleaned tags written by the services round-trip through the ORM tag
column: each is already stripped, nonempty, and comma-free. -/
theorem ormTags_tagsToOrm {ts : List Str}
    (h : ∀ t ∈ ts, strip t = t ∧ t ≠ [] ∧ ',' ∉ t) :
    ormTags (tagsToOrm ts) = ts := by
  by_cases hne : ts = []
  · subst hne; rfl
  · unfold tagsToOrm
    rw [if_neg hne]
    simp only [ormTags]
    rw [if_neg (joinComma_ne_nil hne (fun t ht => (h t ht).2.1))]
    rw [splitComma_joinComma hne (fun t ht => (h t ht).2.2)]
    have hfilter : ts.filter (fun t => strip t ≠ []) = ts := by
      rw [List.filter_eq_self]
      intro t ht
      have h3 := h t ht
      simp only [ne_eq, decide_eq_true_eq]
      rw [h3.1]
      exact h3.2.1
    rw [hfilter]
    have : ∀ t ∈ ts, strip t = t := fun t ht => (h t ht).1
    calc ts.map strip = ts.map id := List.map_congr_left this
    _ = ts := List.map_id ts

/-- The tags produced by the normalization in `create_todo`/`update_todo`
satisfy the round-trip precondition whenever the raw tags are comma-free. -/
theorem normTags_clean {tags : Option (List Str)}
    (h : ∀ t ∈ tags.getD [], ',' ∉ t) :
    ∀ t ∈ services.normTags tags, strip t = t ∧ t ≠ [] ∧ ',' ∉ t := by
  intro t ht
  unfold services.normTags at ht
  obtain ⟨u, hu, rfl⟩ := List.mem_map.mp ht
  have hmem := List.mem_of_mem_filter hu
  have hkeep := List.of_mem_filter hu
  simp only [ne_eq, decide_eq_true_eq] at hkeep
  refine ⟨strip_idem u, hkeep, fun hc => h u hmem (mem_of_mem_strip hc)⟩

/-- Unfolding of a successful `_to_domain`. -/
theorem _to_domain_eq_some {r : Row} {item : TodoItem} :
    _to_domain r = some item ↔
      ∃ st pr, statusFromName r.status = some st ∧ ormPriority r.priority = some pr ∧
        item = { id := some r.id, title := r.title, description := r.description,
                 status := st, created_at := r.created_at, updated_at := r.updated_at,
                 due_date := r.due_date, priority := pr, tags := ormTags r.tags } := by
  unfold _to_domain
  constructor
  · intro h
    cases hst : statusFromName r.status with
    | none => rw [hst] at h; exact absurd h (by simp)
    | some st =>
      cases hpr : ormPriority r.priority with
      | none => rw [hst, hpr] at h; exact absurd h (by simp)
      | some pr =>
        rw [hst, hpr] at h
        exact ⟨st, pr, rfl, rfl, (Option.some_inj.mp h).symm⟩
  · rintro ⟨st, pr, hst, hpr, rfl⟩
    rw [hst, hpr]

theorem _to_domain_rowOfNew (item : TodoItem) (id : Nat) :
    _to_domain (rowOfNew item id) =
      some { item with id := some id, tags := ormTags (tagsToOrm item.tags) } := by
  unfold _to_domain rowOfNew
  rw [statusFromName_pyName, ormPriority_priorityToOrm]

theorem created_at_of_to_domain {r : Row} {item : TodoItem}
    (h : _to_domain r = some item) : item.created_at = r.created_at := by
  obtain ⟨st, pr, _, _, rfl⟩ := _to_domain_eq_some.mp h
  rfl

/-! ### Lookup and commit lemmas -/

theorem id_of_lookup {s : RepoState} {item_id : Nat} {r : Row}
    (h : lookup s item_id = some r) : r.id = item_id := by
  have := List.find?_some h
  simpa using this

theorem find?_commit {rows : List Row} {item_id : Nat} {r r' : Row}
    (h : rows.find? (fun x => x.id = item_id) = some r) (hid : r'.id = item_id) :
    (rows.map (fun x => if x.id = item_id then r' else x)).find?
      (fun x => x.id = item_id) = some r' := by
  induction rows with
  | nil => simp at h
  | cons y ys ih =>
    by_cases hy : y.id = item_id
    · simp only [List.map_cons, if_pos hy]
      exact List.find?_cons_of_pos _ (by simpa using hid)
    · rw [List.find?_cons_of_neg _ (by simpa using hy)] at h
      simp only [List.map_cons, if_neg hy]
      rw [List.find?_cons_of_neg _ (by simpa using hy)]
      exact ih h

theorem lookup_commit {s : RepoState} {item_id : Nat} {r r' : Row}
    (h : lookup s item_id = some r) (hid : r'.id = item_id) :
    lookup (commitRow s item_id r') item_id = some r' :=
  find?_commit h hid

theorem commit_untouched {s : RepoState} {item_id : Nat} {r' : Row} {x : Row}
    (hx : x ∈ s.rows) (hne : x.id ≠ item_id) : x ∈ (commitRow s item_id r').rows := by
  unfold commitRow
  simp only [List.mem_map]
  exact ⟨x, hx, by rw [if_neg hne]⟩

/-! ### mapDecode lemmas -/

theorem mapDecode_created_at {rows : List Row} {items : List TodoItem}
    (h : mapDecode rows = some items) :
    items.map TodoItem.created_at = rows.map Row.created_at := by
  induction rows generalizing items with
  | nil =>
    unfold mapDecode at h
    cases h; rfl
  | cons r rest ih =>
    unfold mapDecode at h
    cases hd : _to_domain r with
    | none => rw [hd] at h; exact absurd h (by simp)
    | some it =>
      cases hrest : mapDecode rest with
      | none => rw [hd, hrest] at h; exact absurd h (by simp)
      | some its =>
        rw [hd, hrest] at h
        cases h
        simp only [List.map_cons, ih hrest, created_at_of_to_domain hd]

end SqlAlchemyTodoRepository

/-! ### Behaviour of the repository operations on a found, decodable row -/

namespace SqlAlchemyTodoRepository

theorem get_found {s : RepoState} {item_id : Nat} {r : Row} {st : Status}
    {pr : Option Priority} (hl : lookup s item_id = some r)
    (hst : statusFromName r.status = some st) (hpr : ormPriority r.priority = some pr) :
    get s item_id =
      some { id := some r.id, title := r.title, description := r.description,
             status := st, created_at := r.created_at, updated_at := r.updated_at,
             due_date := r.due_date, priority := pr, tags := ormTags r.tags } := by
  have hdom : _to_domain r =
      some { id := some r.id, title := r.title, description := r.description,
             status := st, created_at := r.created_at, updated_at := r.updated_at,
             due_date := r.due_date, priority := pr, tags := ormTags r.tags } := by
    unfold _to_domain
    rw [hst, hpr]
  unfold get
  rw [hl]
  exact hdom

theorem set_status_found {s : RepoState} {item_id : Nat} {r : Row}
    {pr : Option Priority} (hl : lookup s item_id = some r)
    (hpr : ormPriority r.priority = some pr) (st2 : Status) (now : Nat) :
    set_status s item_id st2 now =
      (some { id := some r.id, title := r.title, description := r.description,
              status := st2, created_at := r.created_at, updated_at := now,
              due_date := r.due_date, priority := pr, tags := ormTags r.tags },
       commitRow s item_id { r with status := st2.pyName, updated_at := now }) := by
  unfold set_status
  rw [hl]
  simp only [_to_domain, statusFromName_pyName, hpr]

theorem update_todo_found {s : RepoState} {item_id : Nat} {r : Row} {st : Status}
    {pr : Option Priority} (hl : lookup s item_id = some r)
    (hst : statusFromName r.status = some st) (hpr : ormPriority r.priority = some pr)
    (title : Str) (d : Option Str) (dd : Option Nat) (p : Option Priority)
    (tg : Option (List Str)) (now : Nat) :
    services.update_todo s item_id title d dd p tg now =
      (.ok (some { id := some r.id, title := strip title,
                   description := services.normDesc d, status := st,
                   created_at := r.created_at, updated_at := now,
                   due_date := dd, priority := p,
                   tags := ormTags (tagsToOrm (services.normTags tg)) }),
       commitRow s item_id
         { r with title := strip title, description := services.normDesc d,
                  status := st.pyName, updated_at := now, due_date := dd,
                  priority := priorityToOrm p, tags := tagsToOrm (services.normTags tg) }) := by
  have hid := id_of_lookup hl
  subst hid
  unfold services.update_todo
  rw [get_found hl hst hpr]
  unfold update
  simp only [Option.some_bind, hl, pyName_of_statusFromName hst]
  simp only [_to_domain, statusFromName_pyName, ormPriority_priorityToOrm, hst,
    pyName_of_statusFromName hst]

end SqlAlchemyTodoRepository

/-! ### Concrete fixtures used by witnesses and counterexamples -/

/-- An empty store, as created by `init_db`. -/
def repo0 : RepoState := { rows := [], next_id := 1 }

/-- A store holding one well-formed pending item with id 1. -/
def row1 : Row :=
  { id := 1, title := "A".data, description := none, status := "PENDING".data,
    created_at := 0, updated_at := 0, due_date := none, priority := none,
    tags := none }

/-- A one-item store. -/
def repo1 : RepoState := { rows := [row1], next_id := 2 }

open SqlAlchemyTodoRepository

/-! ### C1 -/

/-- C1: the claim states that a create or update with an empty or
whitespace-only title is rejected before any repository operation, so that no
repository call ever receives an item whose normalized title is empty. This is
false on the code: `create_todo` with the whitespace title `" "` performs the
repository `add` (returning a created item) and the stored row's title is the
empty string. -/
theorem create_blank_title_reaches_repository :
    (services.create_todo repo0 " ".data none none none none 0).2.rows.map Row.title
        = [[]] ∧
    (services.create_todo repo0 " ".data none none none none 0).1.isSome = true := by
  decide

/-- C1 (amended): the create and update services perform no title validation:
they normalize the title by trimming and always pass it through to the
repository (`add` respectively `update`), even when the trimmed title is
empty. Blank titles are only rejected in the presentation layer. -/
theorem create_update_pass_trimmed_title (s : RepoState) (title : Str)
    (d : Option Str) (dd : Option Nat) (p : Option Priority)
    (tg : Option (List Str)) (now : Nat) :
    ((services.create_todo s title d dd p tg now).2.rows.map Row.title
      = s.rows.map Row.title ++ [strip title]) ∧
    (∀ item_id r st pr, lookup s item_id = some r →
      statusFromName r.status = some st → ormPriority r.priority = some pr →
      ∃ r', lookup (services.update_todo s item_id title d dd p tg now).2 item_id
          = some r' ∧ r'.title = strip title) := by
  constructor
  · unfold services.create_todo add
    simp [rowOfNew]
  · intro item_id r st pr hl hst hpr
    rw [update_todo_found hl hst hpr]
    have h5 := id_of_lookup hl
    refine ⟨_, lookup_commit hl ?_, rfl⟩
    exact h5

/-- C1 (amended) at a concrete input: creating and updating with the blank
title `" "` against a one-item store stores the empty title in both cases. -/
theorem create_update_pass_trimmed_title_witness :
    ((services.create_todo repo1 " ".data none none none none 7).2.rows.map Row.title
      = repo1.rows.map Row.title ++ [strip " ".data]) ∧
    (∃ r', lookup (services.update_todo repo1 1 " ".data none none none none 7).2 1
        = some r' ∧ r'.title = strip " ".data) := by
  have h := create_update_pass_trimmed_title repo1 " ".data none none none none 7
  exact ⟨h.1, h.2 1 row1 .PENDING none (by decide) (by decide) (by decide)⟩

/-! ### C2 -/

/-- C2: the claim states that the update service raises a hard
`ConflictFailure` on a nonexistent id (a fault, distinct from an absent
result). This is false on the code: `update_todo` checks existence via
`repo.get` first and returns `None` — the same absent convention as
`get`/`toggle`/`set_status` — leaving the store untouched. -/
theorem update_service_absent_on_missing_id :
    services.update_todo repo0 1 "T".data none none none none 0
      = (.ok none, repo0) := rfl

/-- C2 (amended): on a nonexistent id the update service returns an absent
result exactly like `get`, `toggle_done` and `set_status`, and never raises;
only the repository-level `update` (which the service never reaches, since it
checks existence first) raises a `ValueError` for a missing id. -/
theorem missing_id_behaviour (s : RepoState) (item_id : Nat)
    (h : lookup s item_id = none) (title : Str) (d : Option Str) (dd : Option Nat)
    (p : Option Priority) (tg : Option (List Str)) (now : Nat) (item : TodoItem) :
    services.update_todo s item_id title d dd p tg now = (.ok none, s) ∧
    SqlAlchemyTodoRepository.get s item_id = none ∧
    services.toggle_done s item_id now = (none, s) ∧
    set_status s item_id .DONE now = (none, s) ∧
    (item.id = some item_id →
      update s item now = (.error ("Todo with id ? not found".data), s)) := by
  have hget : SqlAlchemyTodoRepository.get s item_id = none := by
    unfold SqlAlchemyTodoRepository.get
    rw [h]
  refine ⟨?_, hget, ?_, ?_, ?_⟩
  · unfold services.update_todo
    rw [hget]
  · unfold services.toggle_done
    rw [hget]
  · unfold set_status
    rw [h]
  · intro hid
    unfold update
    rw [hid, Option.some_bind, h]

/-- C2 (amended) at a concrete input: the empty store with id 1. -/
theorem missing_id_behaviour_witness :
    services.update_todo repo0 1 "T".data none none none none 0 = (.ok none, repo0) ∧
    SqlAlchemyTodoRepository.get repo0 1 = none ∧
    services.toggle_done repo0 1 0 = (none, repo0) ∧
    set_status repo0 1 .DONE 0 = (none, repo0) ∧
    update repo0
        { id := some 1, title := "T".data, description := none, status := .PENDING,
          created_at := 0, updated_at := 0, due_date := none, priority := none,
          tags := [] } 0
      = (.error ("Todo with id ? not found".data), repo0) := by
  have h := missing_id_behaviour repo0 1 (by decide) "T".data none none none none 0
    { id := some 1, title := "T".data, description := none, status := .PENDING,
      created_at := 0, updated_at := 0, due_date := none, priority := none,
      tags := [] }
  exact ⟨h.1, h.2.1, h.2.2.1, h.2.2.2.1, h.2.2.2.2 rfl⟩

/-! ### C3 -/

/-- C3: `apply_filters` returns exactly the sub-list of items satisfying all
supplied filters — status by exact match, text query by case-insensitive
substring of title or description, tag by membership — with absent filters as
no-ops and input order preserved among matches (it is a `List.filter` of the
input, hence a sublist, and membership is the conjunction of the supplied
predicates). The body of `apply_filters` is missing from the source, so this
checks the model transcribed from the spec wording. -/
theorem apply_filters_conjunctive (items : List TodoItem) (status : Option Status)
    (text_query : Option Str) (tag : Option Str) :
    (filters.apply_filters items status text_query tag
      = items.filter (fun item =>
          (match status with | none => true | some st => item.status = st) &&
          (match text_query with | none => true | some q => filters.textMatches q item) &&
          (match tag with | none => true | some t => t ∈ item.tags))) ∧
    (∀ item, item ∈ filters.apply_filters items status text_query tag ↔
      item ∈ items ∧
        (∀ st, status = some st → item.status = st) ∧
        (∀ q, text_query = some q → filters.textMatches q item = true) ∧
        (∀ t, tag = some t → t ∈ item.tags)) ∧
    (filters.apply_filters items none none none = items) ∧
    List.Sublist (filters.apply_filters items status text_query tag) items := by
  refine ⟨?_, ?_, ?_, ?_⟩
  · cases status <;> cases text_query <;> cases tag <;>
      simp [filters.apply_filters, List.filter_filter, Bool.and_comm, Bool.and_assoc,
        Bool.and_left_comm]
  · intro item
    cases status <;> cases text_query <;> cases tag <;>
      simp [filters.apply_filters, List.mem_filter, and_assoc, and_comm, and_left_comm]
  · simp [filters.apply_filters]
  · cases status <;> cases text_query <;> cases tag <;>
      simp [filters.apply_filters]

/-! ### C4: order-relation facts for `sort_items` -/

namespace filters

theorem dueLe_refl (a : Option Nat) : dueLe a a := by
  cases a <;> simp [dueLe]

theorem dueLe_total (a b : Option Nat) : dueLe a b ∨ dueLe b a := by
  cases a <;> cases b <;> simp [dueLe]
  exact Nat.le_total _ _

theorem dueLe_trans {a b c : Option Nat} (h1 : dueLe a b) (h2 : dueLe b c) :
    dueLe a c := by
  cases a <;> cases b <;> cases c <;> simp_all [dueLe]
  exact Nat.le_trans h1 h2

theorem dueLe_antisymm {a b : Option Nat} (h1 : dueLe a b) (h2 : dueLe b a) :
    a = b := by
  cases a <;> cases b <;> simp_all [dueLe]
  exact Nat.le_antisymm h1 h2

theorem dueLe_of_eq {a b : Option Nat} (h : a = b) : dueLe a b := h ▸ dueLe_refl a

instance (bd bp : Bool) : IsTotal TodoItem (itemLe bd bp) := by
  constructor
  intro a b
  cases bd <;> cases bp <;> simp only [itemLe]
  · exact Or.inl trivial
  · exact Nat.le_total _ _
  · exact dueLe_total _ _
  · rcases dueLe_total a.due_date b.due_date with h | h
    · by_cases h' : dueLe b.due_date a.due_date
      · rcases Nat.le_total (prioRank a.priority) (prioRank b.priority) with hp | hp
        · exact Or.inl (Or.inr ⟨dueLe_antisymm h h', hp⟩)
        · exact Or.inr (Or.inr ⟨(dueLe_antisymm h h').symm, hp⟩)
      · exact Or.inl (Or.inl ⟨h, h'⟩)
    · by_cases h' : dueLe a.due_date b.due_date
      · rcases Nat.le_total (prioRank a.priority) (prioRank b.priority) with hp | hp
        · exact Or.inl (Or.inr ⟨dueLe_antisymm h' h, hp⟩)
        · exact Or.inr (Or.inr ⟨(dueLe_antisymm h' h).symm, hp⟩)
      · exact Or.inr (Or.inl ⟨h, h'⟩)

instance (bd bp : Bool) : IsTrans TodoItem (itemLe bd bp) := by
  constructor
  intro a b c hab hbc
  cases bd <;> cases bp <;> simp only [itemLe] at hab hbc ⊢
  · exact Nat.le_trans hab hbc
  · exact dueLe_trans hab hbc
  · rcases hab with hab | hab <;> rcases hbc with hbc | hbc
    · exact Or.inl ⟨dueLe_trans hab.1 hbc.1,
        fun h => hbc.2 (dueLe_trans h hab.1)⟩
    · exact Or.inl ⟨dueLe_trans hab.1 (dueLe_of_eq hbc.1),
        fun h => hab.2 (dueLe_trans (dueLe_of_eq hbc.1) h)⟩
    · exact Or.inl ⟨dueLe_trans (dueLe_of_eq hab.1) hbc.1,
        fun h => hbc.2 (dueLe_trans h (dueLe_of_eq hab.1))⟩
    · exact Or.inr ⟨hab.1.trans hbc.1, Nat.le_trans hab.2 hbc.2⟩

theorem pairwise_itemLe_ff (items : List TodoItem) :
    items.Pairwise (itemLe false false) := by
  induction items with
  | nil => exact List.Pairwise.nil
  | cons a l ih => exact List.Pairwise.cons (fun b _ => trivial) ih

theorem itemLe_true_none_last {bp : Bool} {a b : TodoItem}
    (h : itemLe true bp a b) (ha : a.due_date = none) : b.due_date = none := by
  cases bp <;> simp only [itemLe] at h
  · rw [ha] at h
    cases hb : b.due_date with
    | none => rfl
    | some d => rw [hb] at h; exact absurd h (by simp [dueLe])
  · rcases h with h | h
    · rw [ha] at h
      rcases h with ⟨h1, h2⟩
      cases hb : b.due_date with
      | none => rfl
      | some d => rw [hb] at h1; exact absurd h1 (by simp [dueLe])
    · rw [← h.1, ha]

theorem itemLe_true_dueLe {bp : Bool} {a b : TodoItem}
    (h : itemLe true bp a b) : dueLe a.due_date b.due_date := by
  cases bp <;> simp only [itemLe] at h
  · exact h
  · rcases h with h | h
    · exact h.1
    · exact dueLe_of_eq h.1

end filters

/-- C4: `sort_items` returns a reordering (a permutation) of the input such
that: with no flag it is the input itself; with `by_due_date` set, due dates
are ascending and items without a due date come after every item with one,
ties keeping stable input order; with `by_priority` set, priority ranks
HIGH → MEDIUM → LOW → absent are ascending, ties keeping stable input order;
with both flags set, due date is the primary key and priority the secondary
tie-break. The body of `sort_items` is missing from the source, so this
checks the model transcribed from the spec wording. -/
theorem sort_items_spec (items : List TodoItem) :
    (∀ bd bp, (filters.sort_items items bd bp).Perm items) ∧
    (filters.sort_items items false false = items) ∧
    (∀ bp, (filters.sort_items items true bp).Pairwise
        (fun a b => a.due_date = none → b.due_date = none)) ∧
    (∀ bp, (filters.sort_items items true bp).Pairwise
        (fun a b => filters.dueLe a.due_date b.due_date)) ∧
    (∀ a b, a.due_date = b.due_date → List.Sublist [a, b] items →
        List.Sublist [a, b] (filters.sort_items items true false)) ∧
    ((filters.sort_items items false true).Pairwise
        (fun a b => filters.prioRank a.priority ≤ filters.prioRank b.priority)) ∧
    (∀ a b, filters.prioRank a.priority = filters.prioRank b.priority →
        List.Sublist [a, b] items →
        List.Sublist [a, b] (filters.sort_items items false true)) ∧
    ((filters.sort_items items true true).Pairwise
        (fun a b => filters.dueLt a.due_date b.due_date ∨
          (a.due_date = b.due_date ∧
            filters.prioRank a.priority ≤ filters.prioRank b.priority))) := by
  refine ⟨?_, ?_, ?_, ?_, ?_, ?_, ?_, ?_⟩
  · intro bd bp
    exact List.perm_insertionSort (filters.itemLe bd bp) items
  · exact List.Sorted.insertionSort_eq (filters.pairwise_itemLe_ff items)
  · intro bp
    exact (List.sorted_insertionSort (filters.itemLe true bp) items).imp
      (fun h => filters.itemLe_true_none_last h)
  · intro bp
    exact (List.sorted_insertionSort (filters.itemLe true bp) items).imp
      (fun h => filters.itemLe_true_dueLe h)
  · intro a b heq hsub
    exact List.pair_sublist_insertionSort (filters.dueLe_of_eq heq) hsub
  · exact List.sorted_insertionSort (filters.itemLe false true) items
  · intro a b heq hsub
    exact List.pair_sublist_insertionSort (Nat.le_of_eq heq) hsub
  · exact List.sorted_insertionSort (filters.itemLe true true) items

/-- C4 at a concrete input: two items tied on due date keep their input order,
and the single-flag and double-flag sorts order a three-item list as the spec
describes. -/
theorem sort_items_spec_witness :
    List.Sublist
      [{ id := some 1, title := "a".data, description := none, status := .PENDING,
         created_at := 0, updated_at := 0, due_date := some 5, priority := none,
         tags := [] },
       { id := some 2, title := "b".data, description := none, status := .PENDING,
         created_at := 0, updated_at := 0, due_date := some 5, priority := none,
         tags := [] }]
      (filters.sort_items
        [{ id := some 1, title := "a".data, description := none, status := .PENDING,
           created_at := 0, updated_at := 0, due_date := some 5, priority := none,
           tags := [] },
         { id := some 3, title := "c".data, description := none, status := .PENDING,
           created_at := 0, updated_at := 0, due_date := none, priority := none,
           tags := [] },
         { id := some 2, title := "b".data, description := none, status := .PENDING,
           created_at := 0, updated_at := 0, due_date := some 5, priority := none,
           tags := [] }] true false) := by
  have h := sort_items_spec
    [{ id := some 1, title := "a".data, description := none, status := .PENDING,
       created_at := 0, updated_at := 0, due_date := some 5, priority := none,
       tags := [] },
     { id := some 3, title := "c".data, description := none, status := .PENDING,
       created_at := 0, updated_at := 0, due_date := none, priority := none,
       tags := [] },
     { id := some 2, title := "b".data, description := none, status := .PENDING,
       created_at := 0, updated_at := 0, due_date := some 5, priority := none,
       tags := [] }]
  exact h.2.2.2.2.1 _ _ rfl (by decide)

/-! ### C5 -/

/-- C5: the claim states that for any tag inputs the created item's tags are
the input tags trimmed (blank ones dropped). This is false on the code for a
tag containing a comma: creating with the single tag `"a,b"` yields a
persisted item whose tags are `["a", "b"]` — the adapter stores tags as one
comma-joined string and re-splits it on read — not the trimmed input
`["a,b"]`. -/
theorem create_comma_tag_returns_split_tags :
    ((services.create_todo repo0 "T".data none none none
        (some ["a,b".data]) 0).1).map TodoItem.tags = some ["a".data, "b".data] ∧
    ["a".data, "b".data] ≠ ["a,b".data] := by decide

/-- C5 (amended): for every non-blank title and tag inputs that contain no
comma character, `create_todo` returns a persisted item with status `PENDING`,
the freshly assigned id, `created_at = updated_at = now`, the trimmed title,
and tags equal to the input tags trimmed with blank entries dropped
(`normTags`). -/
theorem create_valid_title_comma_free_tags (s : RepoState) (title : Str)
    (d : Option Str) (dd : Option Nat) (p : Option Priority)
    (tg : Option (List Str)) (now : Nat)
    (_htitle : strip title ≠ [])
    (htags : ∀ t ∈ tg.getD [], ',' ∉ t) :
    ∃ it, (services.create_todo s title d dd p tg now).1 = some it ∧
      it.status = .PENDING ∧
      it.id = some s.next_id ∧
      it.created_at = now ∧
      it.updated_at = now ∧
      it.title = strip title ∧
      it.tags = services.normTags tg := by
  unfold services.create_todo add
  refine ⟨_, _to_domain_rowOfNew _ _, rfl, rfl, rfl, rfl, rfl, ?_⟩
  exact ormTags_tagsToOrm (normTags_clean htags)

/-- C5 (amended) at the spec's concrete scenario: title `" My Task "` with
comma-separated tag text `" work , ,urgent "` (via `parse_tags`) stores title
`"My Task"` and tags `["work", "urgent"]`. -/
theorem create_valid_title_comma_free_tags_witness :
    (∃ it, (services.create_todo repo0 " My Task ".data none none none
        (some (parse_tags " work , ,urgent ".data)) 3).1 = some it ∧
      it.status = .PENDING ∧
      it.id = some repo0.next_id ∧
      it.created_at = 3 ∧
      it.updated_at = 3 ∧
      it.title = strip " My Task ".data ∧
      it.tags = services.normTags (some (parse_tags " work , ,urgent ".data))) ∧
    strip " My Task ".data = "My Task".data ∧
    services.normTags (some (parse_tags " work , ,urgent ".data))
      = ["work".data, "urgent".data] := by
  refine ⟨create_valid_title_comma_free_tags repo0 " My Task ".data none none none
      (some (parse_tags " work , ,urgent ".data)) 3 (by decide) (by decide),
    by decide, by decide⟩

/-! ### C6 -/

/-- Elimination form of a successful repository `get`. -/
theorem get_eq_some_elim {s : RepoState} {item_id : Nat} {item : TodoItem}
    (h : SqlAlchemyTodoRepository.get s item_id = some item) :
    ∃ r st pr, lookup s item_id = some r ∧ statusFromName r.status = some st ∧
      ormPriority r.priority = some pr ∧
      item = { id := some r.id, title := r.title, description := r.description,
               status := st, created_at := r.created_at, updated_at := r.updated_at,
               due_date := r.due_date, priority := pr, tags := ormTags r.tags } := by
  unfold SqlAlchemyTodoRepository.get at h
  cases hl : lookup s item_id with
  | none => rw [hl] at h; exact absurd h (by simp)
  | some r =>
    rw [hl] at h
    obtain ⟨st, pr, h1, h2, h3⟩ := _to_domain_eq_some.mp h
    exact ⟨r, st, pr, rfl, h1, h2, h3⟩

/-- Behaviour of `toggle_done` on a stored, decodable row: flips the status and stamps
`updated_at`. -/
theorem toggle_done_found {s : RepoState} {item_id : Nat} {r : Row} {st : Status}
    {pr : Option Priority} (hl : lookup s item_id = some r)
    (hst : statusFromName r.status = some st) (hpr : ormPriority r.priority = some pr)
    (now : Nat) :
    services.toggle_done s item_id now =
      (some { id := some r.id, title := r.title, description := r.description,
              status := (if st = .PENDING then Status.DONE else .PENDING),
              created_at := r.created_at, updated_at := now,
              due_date := r.due_date, priority := pr, tags := ormTags r.tags },
       commitRow s item_id
         { r with status := (if st = .PENDING then Status.DONE else .PENDING).pyName,
                  updated_at := now }) := by
  unfold services.toggle_done
  rw [get_found hl hst hpr]
  exact set_status_found hl hpr _ now

/-- C6: `toggle_done` is an involution on status: for every stored item,
toggling twice returns the item to its original status, the single toggle
mapping PENDING to DONE and DONE to PENDING. -/
theorem toggle_done_involution (s : RepoState) (item_id : Nat) (item : TodoItem)
    (h : SqlAlchemyTodoRepository.get s item_id = some item) (now1 now2 : Nat) :
    ∃ item1 item2,
      (services.toggle_done s item_id now1).1 = some item1 ∧
      item1.status = (if item.status = .PENDING then Status.DONE else .PENDING) ∧
      (services.toggle_done (services.toggle_done s item_id now1).2 item_id now2).1
        = some item2 ∧
      item2.status = item.status := by
  obtain ⟨r, st, pr, hl, hst, hpr, hitem⟩ := get_eq_some_elim h
  subst hitem
  rw [toggle_done_found hl hst hpr now1]
  have hid := id_of_lookup hl
  have hl1 : lookup (commitRow s item_id
      { r with
        status := (if st = .PENDING then Status.DONE else .PENDING).pyName,
        updated_at := now1 }) item_id
      = some { r with
               status := (if st = .PENDING then Status.DONE else .PENDING).pyName,
               updated_at := now1 } := by
    refine lookup_commit hl ?_
    exact hid
  have hst1 : statusFromName
      ({ r with
         status := (if st = .PENDING then Status.DONE else .PENDING).pyName,
         updated_at := now1 } : Row).status
      = some (if st = .PENDING then Status.DONE else .PENDING) :=
    statusFromName_pyName _
  have hpr1 : ormPriority
      ({ r with
         status := (if st = .PENDING then Status.DONE else .PENDING).pyName,
         updated_at := now1 } : Row).priority = some pr := hpr
  rw [toggle_done_found hl1 hst1 hpr1 now2]
  refine ⟨_, _, rfl, rfl, rfl, ?_⟩
  cases st <;> rfl

/-- C6 at a concrete input: the one-item store, toggled twice. -/
theorem toggle_done_involution_witness :
    ∃ item1 item2,
      (services.toggle_done repo1 1 4).1 = some item1 ∧
      item1.status = (if Status.PENDING = .PENDING then Status.DONE else .PENDING) ∧
      (services.toggle_done (services.toggle_done repo1 1 4).2 1 5).1 = some item2 ∧
      item2.status = Status.PENDING := by
  have h := toggle_done_involution repo1 1
    { id := some 1, title := "A".data, description := none, status := .PENDING,
      created_at := 0, updated_at := 0, due_date := none, priority := none,
      tags := [] } (by decide) 4 5
  exact h

/-! ### C7 -/

/-- C7: `list_todos` with `due_today_or_overdue = true` and reference date `D`
(no status/priority filter) returns exactly the listed items whose due date is
present and `≤ D`; items with no due date or a due date after `D` are
excluded. -/
theorem list_todos_due_today_or_overdue (s : RepoState) (D today : Nat)
    (items : List TodoItem) (h : list_all s = some items) :
    services.list_todos s none none true (some D) today
      = some (items.filter (fun item =>
          match item.due_date with
          | none => false
          | some d => d ≤ D)) ∧
    (∀ x, x ∈ items.filter (fun item =>
          match item.due_date with
          | none => false
          | some d => d ≤ D) ↔
        x ∈ items ∧ ∃ d, x.due_date = some d ∧ d ≤ D) := by
  constructor
  · unfold services.list_todos
    rw [h]
    rfl
  · intro x
    rw [List.mem_filter]
    cases hd : x.due_date with
    | none => simp [hd]
    | some d => simp [hd]

/-- The spec scenario store for the due-date filter: items due on day 9, 10,
11 and one with no due date. -/
def repoDue : RepoState :=
  { rows :=
      [{ id := 1, title := "Overdue".data, description := none,
         status := "PENDING".data, created_at := 0, updated_at := 0,
         due_date := some 9, priority := none, tags := none },
       { id := 2, title := "Due today".data, description := none,
         status := "PENDING".data, created_at := 0, updated_at := 0,
         due_date := some 10, priority := none, tags := none },
       { id := 3, title := "Future".data, description := none,
         status := "PENDING".data, created_at := 0, updated_at := 0,
         due_date := some 11, priority := none, tags := none },
       { id := 4, title := "No due date".data, description := none,
         status := "PENDING".data, created_at := 0, updated_at := 0,
         due_date := none, priority := none, tags := none }],
    next_id := 5 }

/-- C7 at the spec's concrete scenario: items due on day 9, 10, 11 and one
with no due date; listing with reference date 10 returns exactly the first
two. -/
theorem list_todos_due_today_or_overdue_witness :
    (services.list_todos repoDue none none true (some 10) 0).map
        (fun l => l.map TodoItem.title)
      = some ["Overdue".data, "Due today".data] := by
  have hsome : (list_all repoDue).isSome = true := by decide
  have hh : list_all repoDue = some ((list_all repoDue).get hsome) :=
    (Option.some_get hsome).symm
  have h := list_todos_due_today_or_overdue repoDue 10 0 _ hh
  rw [h.1]
  rfl

/-! ### C8 -/

theorem orderedInsert_last {a : Row} {l : List Row}
    (h : ∀ b ∈ l, ¬ createdDesc a b) :
    l.orderedInsert createdDesc a = l ++ [a] := by
  induction l with
  | nil => rfl
  | cons b bs ih =>
    rw [List.orderedInsert, if_neg (h b (List.mem_cons_self b bs))]
    rw [ih (fun x hx => h x (List.mem_cons_of_mem b hx))]
    rfl

theorem insertionSort_strict_incr {rows : List Row}
    (h : rows.Pairwise (fun a b => a.created_at < b.created_at)) :
    rows.insertionSort createdDesc = rows.reverse := by
  induction rows with
  | nil => rfl
  | cons a l ih =>
    rw [List.insertionSort, ih (List.Pairwise.of_cons h), List.reverse_cons]
    refine orderedInsert_last ?_
    intro b hb
    have hab : a.created_at < b.created_at :=
      (List.pairwise_cons.mp h).1 b (List.mem_reverse.mp hb)
    exact fun hle => absurd (Nat.lt_of_lt_of_le hab hle) (Nat.lt_irrefl _)

theorem mapDecode_forall₂ {rows : List Row} {items : List TodoItem}
    (h : mapDecode rows = some items) :
    List.Forall₂ (fun r it => _to_domain r = some it) rows items := by
  induction rows generalizing items with
  | nil =>
    unfold mapDecode at h
    cases h
    exact List.Forall₂.nil
  | cons r rest ih =>
    unfold mapDecode at h
    cases hd : _to_domain r with
    | none => rw [hd] at h; exact absurd h (by simp)
    | some it =>
      cases hrest : mapDecode rest with
      | none => rw [hd, hrest] at h; exact absurd h (by simp)
      | some its =>
        rw [hd, hrest] at h
        cases h
        exact List.Forall₂.cons hd (ih hrest)

/-- C8: `list_all` returns the stored items ordered by creation time
descending: the listed rows are a permutation of the stored rows, each listed
item decodes its row in that order, the returned items' creation times are
non-increasing, and when the stored rows were inserted with strictly
increasing creation timestamps the listing is exactly the reverse of
insertion order (A, B, C inserted gives [C, B, A]). -/
theorem list_all_creation_desc (s : RepoState) :
    ((s.rows.insertionSort createdDesc).Perm s.rows) ∧
    (∀ items, list_all s = some items →
      List.Forall₂ (fun r it => _to_domain r = some it)
        (s.rows.insertionSort createdDesc) items) ∧
    (∀ items, list_all s = some items →
      items.Pairwise (fun a b => b.created_at ≤ a.created_at)) ∧
    (s.rows.Pairwise (fun a b => a.created_at < b.created_at) →
      list_all s = mapDecode s.rows.reverse ∧
      ∀ items, list_all s = some items →
        items.map TodoItem.created_at = (s.rows.map Row.created_at).reverse) := by
  refine ⟨List.perm_insertionSort createdDesc s.rows, ?_, ?_, ?_⟩
  · intro items h
    exact mapDecode_forall₂ h
  · intro items h
    have hmap : items.map TodoItem.created_at
        = (s.rows.insertionSort createdDesc).map Row.created_at :=
      mapDecode_created_at h
    have hsorted : (s.rows.insertionSort createdDesc).Pairwise createdDesc :=
      List.sorted_insertionSort createdDesc s.rows
    have hsorted' : ((s.rows.insertionSort createdDesc).map Row.created_at).Pairwise
        (fun a b => b ≤ a) := by
      rw [List.pairwise_map]
      exact hsorted
    rw [← hmap, List.pairwise_map] at hsorted'
    exact hsorted'
  · intro hinc
    have heq : s.rows.insertionSort createdDesc = s.rows.reverse :=
      insertionSort_strict_incr hinc
    constructor
    · unfold list_all
      rw [heq]
    · intro items h
      have hmap : items.map TodoItem.created_at
          = (s.rows.insertionSort createdDesc).map Row.created_at :=
        mapDecode_created_at h
      rw [hmap, heq, List.map_reverse]

/-- Rows A, B, C inserted with strictly increasing creation times 1, 2, 3. -/
def repoABC : RepoState :=
  { rows :=
      [{ id := 1, title := "A".data, description := none,
         status := "PENDING".data, created_at := 1, updated_at := 1,
         due_date := none, priority := none, tags := none },
       { id := 2, title := "B".data, description := none,
         status := "PENDING".data, created_at := 2, updated_at := 2,
         due_date := none, priority := none, tags := none },
       { id := 3, title := "C".data, description := none,
         status := "PENDING".data, created_at := 3, updated_at := 3,
         due_date := none, priority := none, tags := none }],
    next_id := 4 }

/-- C8 at a concrete input: rows A, B, C inserted with creation times 1 < 2 < 3
list as [C, B, A]. -/
theorem list_all_creation_desc_witness :
    (list_all repoABC = mapDecode repoABC.rows.reverse) ∧
    (list_all repoABC).map (fun l => l.map TodoItem.title)
      = some ["C".data, "B".data, "A".data] := by
  refine ⟨((list_all_creation_desc repoABC).2.2.2 (by decide)).1, by decide⟩

/-! ### C9 -/

/-- C9: on a stored item, the update service overwrites exactly the mutable
columns — title (trimmed), description (normalized), due date, priority, tags
and `updated_at` — while the row keeps its `id`, its `created_at` and its
status, every other row is untouched, the id counter is unchanged, and the
returned item carries the original id and `created_at`. -/
theorem update_todo_frame (s : RepoState) (item_id : Nat) (r : Row)
    (st : Status) (pr : Option Priority)
    (hl : lookup s item_id = some r) (hst : statusFromName r.status = some st)
    (hpr : ormPriority r.priority = some pr) (title : Str) (d : Option Str)
    (dd : Option Nat) (p : Option Priority) (tg : Option (List Str)) (now : Nat) :
    ∃ r', lookup (services.update_todo s item_id title d dd p tg now).2 item_id
        = some r' ∧
      r'.id = r.id ∧
      r'.created_at = r.created_at ∧
      r'.status = r.status ∧
      r'.title = strip title ∧
      r'.description = services.normDesc d ∧
      r'.due_date = dd ∧
      r'.priority = priorityToOrm p ∧
      r'.tags = tagsToOrm (services.normTags tg) ∧
      r'.updated_at = now ∧
      (∀ x ∈ s.rows, x.id ≠ item_id →
        x ∈ (services.update_todo s item_id title d dd p tg now).2.rows) ∧
      (services.update_todo s item_id title d dd p tg now).2.next_id = s.next_id ∧
      (∃ it, (services.update_todo s item_id title d dd p tg now).1 = .ok (some it) ∧
        it.id = some r.id ∧ it.created_at = r.created_at) := by
  have hid := id_of_lookup hl
  rw [update_todo_found hl hst hpr]
  refine ⟨_, lookup_commit hl hid, rfl, rfl, pyName_of_statusFromName hst, rfl, rfl,
    rfl, rfl, rfl, rfl, ?_, rfl, ⟨_, rfl, rfl, rfl⟩⟩
  intro x hx hne
  exact commit_untouched hx hne

/-- C9 at a concrete input: updating the one-item store. -/
theorem update_todo_frame_witness :
    ∃ r', lookup (services.update_todo repo1 1 " New ".data (some "d".data)
        (some 9) (some .HIGH) (some ["x".data]) 6).2 1 = some r' ∧
      r'.id = row1.id ∧
      r'.created_at = row1.created_at ∧
      r'.status = row1.status ∧
      r'.title = strip " New ".data ∧
      r'.description = services.normDesc (some "d".data) ∧
      r'.due_date = some 9 ∧
      r'.priority = priorityToOrm (some .HIGH) ∧
      r'.tags = tagsToOrm (services.normTags (some ["x".data])) ∧
      r'.updated_at = 6 ∧
      (∀ x ∈ repo1.rows, x.id ≠ 1 →
        x ∈ (services.update_todo repo1 1 " New ".data (some "d".data)
          (some 9) (some .HIGH) (some ["x".data]) 6).2.rows) ∧
      (services.update_todo repo1 1 " New ".data (some "d".data)
        (some 9) (some .HIGH) (some ["x".data]) 6).2.next_id = repo1.next_id ∧
      (∃ it, (services.update_todo repo1 1 " New ".data (some "d".data)
          (some 9) (some .HIGH) (some ["x".data]) 6).1 = .ok (some it) ∧
        it.id = some row1.id ∧ it.created_at = row1.created_at) :=
  update_todo_frame repo1 1 row1 .PENDING none (by decide) (by decide) (by decide)
    " New ".data (some "d".data) (some 9) (some .HIGH) (some ["x".data]) 6

/-! ### C10 -/

/-- A helper: `find?` skips a prefix on which the predicate fails. -/
theorem find?_append_right {l1 l2 : List Row} {p : Row → Bool}
    (h : ∀ x ∈ l1, p x = false) : (l1 ++ l2).find? p = l2.find? p := by
  induction l1 with
  | nil => rfl
  | cons y ys ih =>
    rw [List.cons_append, List.find?_cons_of_neg _ (by simp [h y (List.mem_cons_self y ys)])]
    exact ih (fun x hx => h x (List.mem_cons_of_mem y hx))

/-- The item whose single tag holds an inner comma. -/
def itemCommaTag : TodoItem :=
  { id := none, title := "T".data, description := none, status := .PENDING,
    created_at := 0, updated_at := 0, due_date := none, priority := none,
    tags := ["a,b".data] }

/-- The item whose single tag is non-blank and comma-free but not trimmed. -/
def itemUntrimmedTag : TodoItem :=
  { id := none, title := "T".data, description := none, status := .PENDING,
    created_at := 0, updated_at := 0, due_date := none, priority := none,
    tags := [" x ".data] }

/-- C10: the claim states that `add` followed by `get` returns the same tags
sequence for every item whose tags are all non-blank and comma-free. This is
false on the code for a non-trimmed tag: the single tag `" x "` is non-blank
and contains no comma, yet `get` after `add` returns `["x"]`, because
`_to_domain` strips each fragment of the re-split comma-joined string. -/
theorem add_get_untrimmed_tag_not_roundtrip :
    (strip " x ".data ≠ [] ∧ ',' ∉ " x ".data) ∧
    (SqlAlchemyTodoRepository.get (add repo0 itemUntrimmedTag).2 1).map TodoItem.tags
      = some ["x".data] ∧
    ["x".data] ≠ [" x ".data] := by decide

/-- C10 (amended): the persistence adapter round-trips tags faithfully only
for trimmed comma-free tags: for every item whose tags are all trimmed,
non-blank and comma-free, `add` followed by `get` on the assigned id returns
the same tags sequence; and there is an item — one with the single tag
`"a,b"` — for which `get` after `add` returns a different sequence
(`["a", "b"]`), because tags are stored as one comma-joined string and
re-split on read. -/
theorem add_get_tags_roundtrip (s : RepoState) (item : TodoItem)
    (hfresh : ∀ r ∈ s.rows, r.id ≠ s.next_id)
    (htags : ∀ t ∈ item.tags, strip t = t ∧ t ≠ [] ∧ ',' ∉ t) :
    (∃ it, (add s item).1 = some it ∧ it.tags = item.tags ∧
      SqlAlchemyTodoRepository.get (add s item).2 s.next_id = some it) ∧
    ((SqlAlchemyTodoRepository.get (add repo0 itemCommaTag).2 1).map TodoItem.tags
        = some ["a".data, "b".data] ∧
      ["a".data, "b".data] ≠ ["a,b".data]) := by
  constructor
  · refine ⟨_, _to_domain_rowOfNew item s.next_id, ormTags_tagsToOrm htags, ?_⟩
    show SqlAlchemyTodoRepository.get
      { rows := s.rows ++ [rowOfNew item s.next_id], next_id := s.next_id + 1 }
      s.next_id = _
    unfold SqlAlchemyTodoRepository.get lookup
    rw [show ({ rows := s.rows ++ [rowOfNew item s.next_id],
                next_id := s.next_id + 1 } : RepoState).rows
        = s.rows ++ [rowOfNew item s.next_id] from rfl]
    rw [find?_append_right (fun x hx => by
      simpa using hfresh x hx)]
    rw [List.find?_cons_of_pos _ (by simp [rowOfNew])]
    exact _to_domain_rowOfNew item s.next_id
  · exact ⟨by decide, by decide⟩

/-- C10 (amended) at a concrete input: the tags `["work", "urgent"]` round-trip
through `add` and `get` unchanged. -/
theorem add_get_tags_roundtrip_witness :
    (∃ it, (add repo0
        { id := none, title := "T".data, description := none, status := .PENDING,
          created_at := 0, updated_at := 0, due_date := none, priority := none,
          tags := ["work".data, "urgent".data] }).1 = some it ∧
      it.tags = ["work".data, "urgent".data] ∧
      SqlAlchemyTodoRepository.get (add repo0
        { id := none, title := "T".data, description := none, status := .PENDING,
          created_at := 0, updated_at := 0, due_date := none, priority := none,
          tags := ["work".data, "urgent".data] }).2 repo0.next_id = some it) ∧
    ((SqlAlchemyTodoRepository.get (add repo0 itemCommaTag).2 1).map TodoItem.tags
        = some ["a".data, "b".data] ∧
      ["a".data, "b".data] ≠ ["a,b".data]) := by
  have h := add_get_tags_roundtrip repo0
    { id := none, title := "T".data, description := none, status := .PENDING,
      created_at := 0, updated_at := 0, due_date := none, priority := none,
      tags := ["work".data, "urgent".data] } (by decide) (by decide)
  exact h

end TodoApp
